import Mathlib

/-!
Verification of the JUnit XML report renderer of
`pkg/reporter/junit_reporter.go`.

The Go file defines the report tree (`Testsuites` → `Testsuite` →
`Testcase` → `Property`/`Skipped`/`TestcaseError`/`TestcaseFailure`/
`SystemOut`/`SystemErr`), a document-wide property check
(`checkPropertyValidity`), serialization (`getReport`, which calls
`xml.MarshalIndent(ts, " ", "  ")`), and the entry point
`JunitReporter.Print`, which adapts a slice of `Report` values into one
document and prints it after the fixed XML declaration `Header`.

The embedding below mirrors those declarations one for one.  Go's
`encoding/xml` marshalling is modelled by per-struct renderers that
specialise the reflective marshaller to the struct tags the file
declares: a field tagged `name,attr` is always emitted, `…,attr,omitempty`
is dropped at the type's zero value, an untagged-as-attr field becomes a
child element, `,chardata` becomes text content, `a>b` wraps children in a
parent element, and a nil pointer suppresses the whole subtree.  The
indentation model follows `encoding/xml`'s printer for
`MarshalIndent(v, " ", "  ")`: every element but the first begins on a new
line prefixed by one space plus two spaces per depth, and a closing tag
stands on its own line exactly when the element emitted a child element.
-/

set_option maxRecDepth 8192

namespace Junit

/-- Characters legal in XML 1.0 (Go `xml.isInCharacterRange`); anything else
is replaced by U+FFFD when escaping. -/
def isInCharacterRange (c : Char) : Bool :=
  let n := c.toNat
  n == 0x09 || n == 0x0A || n == 0x0D ||
  (decide (0x20 ≤ n) && decide (n ≤ 0xD7FF)) ||
  (decide (0xE000 ≤ n) && decide (n ≤ 0xFFFD)) ||
  (decide (0x10000 ≤ n) && decide (n ≤ 0x10FFFF))

/-- Escape one character the way Go's `xml.EscapeText` / `printer.EscapeString`
do, for both attribute values and character data. -/
def escapeChar (c : Char) : String :=
  if c == Char.ofNat 34 then "&#34;"
  else if c == Char.ofNat 39 then "&#39;"
  else if c == '&' then "&amp;"
  else if c == '<' then "&lt;"
  else if c == '>' then "&gt;"
  else if c == Char.ofNat 9 then "&#x9;"
  else if c == Char.ofNat 10 then "&#xA;"
  else if c == Char.ofNat 13 then "&#xD;"
  else if isInCharacterRange c then String.singleton c
  else String.singleton (Char.ofNat 0xFFFD)

/-- Escape a string for XML output (Go `xml.EscapeText`). -/
def escapeString (s : String) : String :=
  String.join (s.data.map escapeChar)

/-- Text of a `float32`-valued attribute.  Go renders it with
`strconv.FormatFloat(float64(v), 'g', -1, 32)`; the reporter never stores a
nonzero time, so zero (always omitted by `omitempty`) is the only value that
occurs, and the plain decimal rendering of the rational stands in for the
shortest-float form. -/
def formatGoFloat (q : Rat) : String :=
  toString q

/-- Rendered attribute list: Go's marshaller writes one space before every
`key="value"` pair, escaping the value. -/
def renderAttrs (attrs : List (String × String)) : String :=
  String.join (attrs.map (fun kv => " " ++ kv.1 ++ "=" ++ "\"" ++ escapeString kv.2 ++ "\""))

/-- Indentation in front of an element at `depth`, for
`xml.MarshalIndent(ts, " ", "  ")`: the prefix `" "` plus one copy of `"  "`
per nesting level. -/
def indentAt (depth : Nat) : String :=
  " " ++ String.join (List.replicate depth "  ")

/-- An attribute that Go's `omitempty` drops at the zero value: present
exactly when `emit` holds. -/
def optAttr (emit : Bool) (key value : String) : List (String × String) :=
  if emit then [(key, value)] else []

/-- Body of one marshalled element: open tag with attributes, the already
rendered child elements, the character data (written after the fields that
precede it, here always last or alone), and the close tag.  Per
`encoding/xml`'s printer, the close tag stands on a new indented line iff at
least one child element was written. -/
def elementBody (depth : Nat) (name : String) (attrs : List (String × String))
    (children : List String) (charData : String) : String :=
  "<" ++ name ++ renderAttrs attrs ++ ">" ++ String.join children ++ escapeString charData ++
  (if children.isEmpty then "" else "\n" ++ indentAt depth) ++ "</" ++ name ++ ">"

/-- A marshalled element that is not the document root: every such element
begins on a new indented line. -/
def childElement (depth : Nat) (name : String) (attrs : List (String × String))
    (children : List String) (charData : String) : String :=
  "\n" ++ indentAt depth ++ elementBody depth name attrs children charData

/-- Go struct `Property`: chardata text plus a required `name` attribute and
an `omitempty` `value` attribute. -/
structure Property where
  textValue : String := ""
  name : String := ""
  value : String := ""
deriving Repr, DecidableEq

/-- Go struct `Skipped`: a required (not `omitempty`) `message` attribute. -/
structure Skipped where
  message : String := ""
deriving Repr, DecidableEq

/-- Go struct `TestcaseError`: `Message` and `Type` carry no `attr` flag, so
they marshal as child elements `<message>`/`<type>`, plus chardata text. -/
structure TestcaseError where
  message : String := ""
  type : String := ""
  textValue : String := ""
deriving Repr, DecidableEq

/-- Go struct `TestcaseFailure`: same shape as `TestcaseError`, element name
`failure`. -/
structure TestcaseFailure where
  message : String := ""
  type : String := ""
  textValue : String := ""
deriving Repr, DecidableEq

/-- Go struct `SystemOut`: chardata only. -/
structure SystemOut where
  textValue : String := ""
deriving Repr, DecidableEq

/-- Go struct `SystemErr`: chardata only. -/
structure SystemErr where
  textValue : String := ""
deriving Repr, DecidableEq

/-- Go struct `Testcase`.  Pointer-valued fields (`*Skipped`, `*[]Property`,
`*TestcaseError`, `*TestcaseFailure`) are options: `none` is a nil pointer, so
the whole subtree is absent. -/
structure Testcase where
  name : String := ""
  className : String := ""
  assertions : Int := 0
  time : Rat := 0
  file : String := ""
  line : Int := 0
  skipped : Option Skipped := none
  properties : Option (List Property) := none
  testcaseError : Option TestcaseError := none
  testcaseFailure : Option TestcaseFailure := none
deriving Repr, DecidableEq

/-- Go struct `Testsuite`.  `timestamp` models `*time.Time`: `none` is nil,
`some t` holds the RFC 3339 text the non-nil time marshals to. -/
structure Testsuite where
  name : String := ""
  tests : Int := 0
  failures : Int := 0
  errors : Int := 0
  skipped : Int := 0
  assertions : Int := 0
  time : Rat := 0
  timestamp : Option String := none
  file : String := ""
  testcases : Option (List Testcase) := none
  properties : Option (List Property) := none
  systemOut : Option SystemOut := none
  systemErr : Option SystemErr := none
deriving Repr, DecidableEq

/-- Go struct `Testsuites`, the document root. -/
structure Testsuites where
  name : String := ""
  tests : Int := 0
  failures : Int := 0
  errors : Int := 0
  skipped : Int := 0
  assertions : Int := 0
  time : Rat := 0
  timestamp : Option String := none
  testsuites : List Testsuite := []
deriving Repr, DecidableEq

/-- Attributes of the `testsuites` root element, in struct-field order.  Every
attribute of the root carries `omitempty`, `name` included. -/
def Testsuites.xmlAttrs (ts : Testsuites) : List (String × String) :=
  optAttr (decide (ts.name ≠ "")) "name" ts.name ++
  optAttr (decide (ts.tests ≠ 0)) "tests" (toString ts.tests) ++
  optAttr (decide (ts.failures ≠ 0)) "failures" (toString ts.failures) ++
  optAttr (decide (ts.errors ≠ 0)) "errors" (toString ts.errors) ++
  optAttr (decide (ts.skipped ≠ 0)) "skipped" (toString ts.skipped) ++
  optAttr (decide (ts.assertions ≠ 0)) "assertions" (toString ts.assertions) ++
  optAttr (decide (ts.time ≠ 0)) "time" (formatGoFloat ts.time) ++
  (match ts.timestamp with | none => [] | some t => [("timestamp", t)])

/-- Attributes of a `testsuite` element, in struct-field order.  `name` has no
`omitempty`, so it is always emitted. -/
def Testsuite.xmlAttrs (s : Testsuite) : List (String × String) :=
  [("name", s.name)] ++
  optAttr (decide (s.tests ≠ 0)) "tests" (toString s.tests) ++
  optAttr (decide (s.failures ≠ 0)) "failures" (toString s.failures) ++
  optAttr (decide (s.errors ≠ 0)) "errors" (toString s.errors) ++
  optAttr (decide (s.skipped ≠ 0)) "skipped" (toString s.skipped) ++
  optAttr (decide (s.assertions ≠ 0)) "assertions" (toString s.assertions) ++
  optAttr (decide (s.time ≠ 0)) "time" (formatGoFloat s.time) ++
  (match s.timestamp with | none => [] | some t => [("timestamp", t)]) ++
  optAttr (decide (s.file ≠ "")) "file" s.file

/-- Attributes of a `testcase` element, in struct-field order.  `name` and
`classname` carry no `omitempty`, so they are always emitted. -/
def Testcase.xmlAttrs (tc : Testcase) : List (String × String) :=
  [("name", tc.name), ("classname", tc.className)] ++
  optAttr (decide (tc.assertions ≠ 0)) "assertions" (toString tc.assertions) ++
  optAttr (decide (tc.time ≠ 0)) "time" (formatGoFloat tc.time) ++
  optAttr (decide (tc.file ≠ "")) "file" tc.file ++
  optAttr (decide (tc.line ≠ 0)) "line" (toString tc.line)

/-- Attributes of a `skipped` element: `message` has no `omitempty`, so it is
emitted even when empty. -/
def Skipped.xmlAttrs (sk : Skipped) : List (String × String) :=
  [("message", sk.message)]

/-- Attributes of a `property` element: required `name`, `omitempty`
`value`. -/
def Property.xmlAttrs (p : Property) : List (String × String) :=
  [("name", p.name)] ++ optAttr (decide (p.value ≠ "")) "value" p.value

/-- Marshalled `property` element: attributes plus chardata text. -/
def Property.render (depth : Nat) (p : Property) : String :=
  childElement depth "property" p.xmlAttrs [] p.textValue

/-- Marshalled `properties` wrapper (struct tag `properties>property`): the
wrapper element is written whenever the `*[]Property` pointer is non-nil. -/
def renderPropertiesBlock (depth : Nat) (ps : List Property) : String :=
  childElement depth "properties" [] (ps.map (Property.render (depth + 1))) ""

/-- Marshalled `skipped` element. -/
def Skipped.render (depth : Nat) (sk : Skipped) : String :=
  childElement depth "skipped" sk.xmlAttrs [] ""

/-- Marshalled `error` element: `Message` and `Type` become child elements
(no `attr` in their tags), dropped when empty (`omitempty`); the chardata
field comes last. -/
def TestcaseError.render (depth : Nat) (e : TestcaseError) : String :=
  childElement depth "error" []
    ((if decide (e.message ≠ "") then [childElement (depth + 1) "message" [] [] e.message] else []) ++
     (if decide (e.type ≠ "") then [childElement (depth + 1) "type" [] [] e.type] else []))
    e.textValue

/-- Marshalled `failure` element: same field layout as `error`. -/
def TestcaseFailure.render (depth : Nat) (f : TestcaseFailure) : String :=
  childElement depth "failure" []
    ((if decide (f.message ≠ "") then [childElement (depth + 1) "message" [] [] f.message] else []) ++
     (if decide (f.type ≠ "") then [childElement (depth + 1) "type" [] [] f.type] else []))
    f.textValue

/-- Marshalled `testcase` element; child fields in struct order: `Skipped`,
`Properties`, `TestcaseError`, `TestcaseFailure`, each absent when its pointer
is nil. -/
def Testcase.render (depth : Nat) (tc : Testcase) : String :=
  childElement depth "testcase" tc.xmlAttrs
    ((match tc.skipped with | none => [] | some sk => [Skipped.render (depth + 1) sk]) ++
     (match tc.properties with | none => [] | some ps => [renderPropertiesBlock (depth + 1) ps]) ++
     (match tc.testcaseError with | none => [] | some e => [TestcaseError.render (depth + 1) e]) ++
     (match tc.testcaseFailure with | none => [] | some f => [TestcaseFailure.render (depth + 1) f]))
    ""

/-- Marshalled `testsuite` element; child fields in struct order:
`Testcases` (each slice entry its own `testcase` element), `Properties`
(wrapped), `SystemOut`, `SystemErr`. -/
def Testsuite.render (depth : Nat) (s : Testsuite) : String :=
  childElement depth "testsuite" s.xmlAttrs
    ((match s.testcases with | none => [] | some tcs => tcs.map (Testcase.render (depth + 1))) ++
     (match s.properties with | none => [] | some ps => [renderPropertiesBlock (depth + 1) ps]) ++
     (match s.systemOut with | none => [] | some so => [childElement (depth + 1) "system-out" [] [] so.textValue]) ++
     (match s.systemErr with | none => [] | some se => [childElement (depth + 1) "system-err" [] [] se.textValue]))
    ""

/-- Model of `xml.MarshalIndent(ts, " ", "  ")` on the report document: the
root element starts the output directly after its prefix (the printer's
`putNewline` flag suppresses the very first newline). -/
def marshalTestsuites (ts : Testsuites) : String :=
  indentAt 0 ++ elementBody 0 "testsuites" ts.xmlAttrs (ts.testsuites.map (Testsuite.render 1)) ""

/-- Go `findBadProperty` inline condition: first property carrying both a
`value` attribute and inline text, in slice order. -/
def findBadProperty (ps : List Property) : Option Property :=
  ps.find? (fun p => p.value != "" && p.textValue != "")

/-- Inner loop of `checkPropertyValidity` over a suite's testcases: a testcase
with a nil `Properties` pointer is skipped (`continue`); the first violating
property yields the testcase-flavoured error. -/
def checkCases (tcs : List Testcase) : Option String :=
  match tcs with
  | [] => none
  | tc :: rest =>
    match tc.properties with
    | none => checkCases rest
    | some ps =>
      match findBadProperty ps with
      | some p => some ("property " ++ p.name ++ " in testcase " ++ tc.name ++
          " should contain value or a text value, not both")
      | none => checkCases rest

/-- Outer loop of `checkPropertyValidity`.  Faithful to the source's control
flow: when a suite's `Properties` pointer is nil the loop `continue`s to the
next suite, which also skips the testcase scan of that suite; likewise a nil
`Testcases` pointer skips the testcase scan. -/
def checkSuites (suites : List Testsuite) : Option String :=
  match suites with
  | [] => none
  | s :: rest =>
    match s.properties with
    | none => checkSuites rest
    | some ps =>
      match findBadProperty ps with
      | some p => some ("property " ++ p.name ++ " in testsuite " ++ s.name ++
          " should contain value or a text value, not both")
      | none =>
        match s.testcases with
        | none => checkSuites rest
        | some tcs =>
          match checkCases tcs with
          | some e => some e
          | none => checkSuites rest

/-- Go method `(ts Testsuites) checkPropertyValidity() error`: `some msg` is a
non-nil error carrying `msg`. -/
def Testsuites.checkPropertyValidity (ts : Testsuites) : Option String :=
  checkSuites ts.testsuites

/-- Go method `(ts Testsuites) getReport() ([]byte, error)`: the validity check
first, then `xml.MarshalIndent`.  Marshalling these struct types cannot fail,
so its error branch is not represented. -/
def Testsuites.getReport (ts : Testsuites) : Except String String :=
  match ts.checkPropertyValidity with
  | some e => Except.error e
  | none => Except.ok (marshalTestsuites ts)

/-- Go constant `Header`. -/
def Header : String :=
  "<?xml version=" ++ "\"" ++ "1.0" ++ "\"" ++ " encoding=" ++ "\"" ++ "UTF-8" ++ "\"" ++ "?>" ++ "\n"

/-- Modelled from the spec: the `Report` record supplied by the external
validation collaborator (its declaration lives elsewhere in the repository,
outside the staged source file): a file path string, a validity boolean, and
an error value.  The Go `error` interface value is modelled by the string its
`Error()` method returns; `none` is a nil error, and the spec's input
contract says the error is present iff the record is invalid. -/
structure Report where
  filePath : String
  isValid : Bool
  validationError : Option String
deriving Repr, DecidableEq

/-- Path normalization in `Print`: `strings.Contains(p, "\\")` (the
single-character pattern occurs in `p`) guards
`strings.ReplaceAll(p, "\\", "/")`, which for a one-character pattern is
character-wise replacement. -/
def normalizePath (s : String) : String :=
  if '\\' ∈ s.data then
    { data := s.data.map (fun c => if c == '\\' then '/' else c) }
  else s

/-- Outcome of one `Print` call, as observed by the caller and on the output
stream. -/
inductive PrintOutcome where
  | panicked
  | errored (e : String)
  | printed (out : String)
deriving Repr, DecidableEq

/-- Testcase built for one report in `Print`'s loop:
`Testcase{Name: fmt.Sprintf("%s validation", r.FilePath), File: r.FilePath,
ClassName: "config-file-validator"}` after path normalization. -/
def mkCase (r : Report) : Testcase :=
  { name := normalizePath r.filePath ++ " validation",
    file := normalizePath r.filePath,
    className := "config-file-validator" }

/-- The same testcase after the `!r.IsValid` branch set
`tc.TestcaseFailure = &TestcaseFailure{Message: r.ValidationError.Error()}`. -/
def mkFailCase (r : Report) (m : String) : Testcase :=
  { mkCase r with testcaseFailure := some { message := m } }

/-- Loop of `Print`: builds the testcase slice in input order together with
the running `testErrors` counter.  `none` models the run-time panic of
`r.ValidationError.Error()` on a nil error, which Go raises before anything
is written. -/
def buildCases (reports : List Report) : Option (List Testcase × Int) :=
  match reports with
  | [] => some ([], 0)
  | r :: rest =>
    if r.isValid then
      match buildCases rest with
      | none => none
      | some (tcs, n) => some (mkCase r :: tcs, n)
    else
      match r.validationError with
      | none => none
      | some m =>
        match buildCases rest with
        | none => none
        | some (tcs, n) => some (mkFailCase r m :: tcs, n + 1)

/-- Document construction in `Print`: one suite named after the tool holding
every testcase and the error counter, inside a root with `Tests =
len(reports)`. -/
def buildTestsuites (reports : List Report) : Option Testsuites :=
  match buildCases reports with
  | none => none
  | some (testcases, testErrors) =>
    some { name := "config-file-validator",
           tests := (reports.length : Int),
           testsuites := [{ name := "config-file-validator",
                            errors := testErrors,
                            testcases := some testcases }] }

/-- Tail of `Print` from `ts.getReport()` on: an error aborts with that error
and writes nothing; success writes `fmt.Println(Header + string(data))`,
which appends one more newline after the body. -/
def printDocument (ts : Testsuites) : PrintOutcome :=
  match ts.getReport with
  | Except.error e => PrintOutcome.errored e
  | Except.ok data => PrintOutcome.printed (Header ++ data ++ "\n")

/-- Go method `(jr JunitReporter) Print(reports []Report) error` with its one
side effect made explicit in the outcome. -/
def Print (reports : List Report) : PrintOutcome :=
  match buildTestsuites reports with
  | none => PrintOutcome.panicked
  | some ts => printDocument ts

/-- Number of invalid reports in a list (Go's `testErrors` counter value). -/
def invalidCount (reports : List Report) : Int :=
  ((reports.filter (fun r => !r.isValid)).length : Int)

/-- Relation between one input report and the testcase `Print` builds for
it. -/
def caseMatches (r : Report) (tc : Testcase) : Prop :=
  tc.name = normalizePath r.filePath ++ " validation" ∧
  tc.className = "config-file-validator" ∧
  tc.file = normalizePath r.filePath ∧
  tc.skipped = none ∧
  tc.properties = none ∧
  tc.testcaseError = none ∧
  (r.isValid = true → tc.testcaseFailure = none) ∧
  (r.isValid = false → ∃ m, r.validationError = some m ∧
    tc.testcaseFailure = some { message := m, type := "", textValue := "" })

theorem caseMatches_mkCase (r : Report) (hv : r.isValid = true) :
    caseMatches r (mkCase r) := by
  refine ⟨rfl, rfl, rfl, rfl, rfl, rfl, fun _ => rfl, fun hf => ?_⟩
  rw [hv] at hf
  cases hf

theorem caseMatches_mkFailCase (r : Report) (m : String) (hv : r.isValid = false)
    (he : r.validationError = some m) : caseMatches r (mkFailCase r m) := by
  refine ⟨rfl, rfl, rfl, rfl, rfl, rfl, fun hf => ?_, fun _ => ⟨m, he, rfl⟩⟩
  rw [hv] at hf
  cases hf

theorem invalidCount_cons_true {r : Report} {rest : List Report} (hv : r.isValid = true) :
    invalidCount (r :: rest) = invalidCount rest := by
  simp [invalidCount, List.filter_cons, hv]

theorem invalidCount_cons_false {r : Report} {rest : List Report} (hv : r.isValid = false) :
    invalidCount (r :: rest) = invalidCount rest + 1 := by
  simp only [invalidCount, List.filter_cons, hv, Bool.not_false, if_true, List.length_cons]
  push_cast
  ring

/-- Soundness of the loop of `Print`: when no nil error is dereferenced, the
built slice has one testcase per report, in order and matching it, and the
counter equals the number of invalid reports. -/
theorem buildCases_sound {reports : List Report} {tcs : List Testcase} {n : Int}
    (h : buildCases reports = some (tcs, n)) :
    tcs.length = reports.length ∧ n = invalidCount reports ∧
    List.Forall₂ caseMatches reports tcs := by
  induction reports generalizing tcs n with
  | nil =>
    simp only [buildCases, Option.some.injEq, Prod.mk.injEq] at h
    obtain ⟨h1, h2⟩ := h
    subst h1
    subst h2
    exact ⟨rfl, rfl, List.Forall₂.nil⟩
  | cons r rest ih =>
    cases hv : r.isValid with
    | true =>
      simp only [buildCases, hv, if_true] at h
      cases hb : buildCases rest with
      | none => rw [hb] at h; cases h
      | some p =>
        obtain ⟨tcs', n'⟩ := p
        rw [hb] at h
        simp only [Option.some.injEq, Prod.mk.injEq] at h
        obtain ⟨h1, h2⟩ := h
        subst h1
        subst h2
        obtain ⟨hL, hN, hF⟩ := ih hb
        refine ⟨by simp [hL], ?_, List.Forall₂.cons (caseMatches_mkCase r hv) hF⟩
        rw [invalidCount_cons_true hv, hN]
    | false =>
      cases he : r.validationError with
      | none =>
        simp only [buildCases, hv, he, Bool.false_eq_true, if_false] at h
        exact Option.noConfusion h
      | some m =>
        simp only [buildCases, hv, he, Bool.false_eq_true, if_false] at h
        cases hb : buildCases rest with
        | none => rw [hb] at h; cases h
        | some p =>
          obtain ⟨tcs', n'⟩ := p
          rw [hb] at h
          simp only [Option.some.injEq, Prod.mk.injEq] at h
          obtain ⟨h1, h2⟩ := h
          subst h1
          subst h2
          obtain ⟨hL, hN, hF⟩ := ih hb
          refine ⟨by simp [hL], ?_, List.Forall₂.cons (caseMatches_mkFailCase r m hv he) hF⟩
          rw [invalidCount_cons_false hv, hN]

/-- The document `Print` builds once the loop has succeeded. -/
theorem buildTestsuites_eq {reports : List Report} {tcs : List Testcase} {n : Int}
    (h : buildCases reports = some (tcs, n)) :
    buildTestsuites reports = some
      { name := "config-file-validator",
        tests := (reports.length : Int),
        testsuites := [{ name := "config-file-validator",
                         errors := n,
                         testcases := some tcs }] } := by
  simp [buildTestsuites, h]

/-- Under the input contract (an error value is present on every invalid
report), the loop of `Print` never dereferences a nil error. -/
theorem buildCases_isSome {reports : List Report}
    (h : ∀ r ∈ reports, r.isValid = false → r.validationError ≠ none) :
    (buildCases reports).isSome := by
  induction reports with
  | nil => simp [buildCases]
  | cons r rest ih =>
    have hrest : ∀ x ∈ rest, x.isValid = false → x.validationError ≠ none :=
      fun x hx => h x (List.mem_cons_of_mem _ hx)
    obtain ⟨p, hp⟩ := Option.isSome_iff_exists.mp (ih hrest)
    obtain ⟨tcs, n⟩ := p
    cases hv : r.isValid with
    | true => simp [buildCases, hv, hp]
    | false =>
      cases he : r.validationError with
      | none => exact absurd he (h r (List.mem_cons_self r rest) hv)
      | some m => simp [buildCases, hv, he, hp]

/-- Key list of an attribute block built by `optAttr`. -/
theorem map_fst_optAttr (b : Bool) (k v : String) :
    (optAttr b k v).map Prod.fst = if b then [k] else [] := by
  unfold optAttr
  split <;> rfl

/-- Document used for C1: the only violating property sits on a testcase
whose owning suite has a nil `Properties` pointer. -/
def c1Doc : Testsuites :=
  { name := "s",
    testsuites := [{ name := "suite1",
                     testcases := some [{ name := "case1", className := "c",
                                          properties := some [{ name := "p", value := "x",
                                                                textValue := "y" }] }] }] }

/-- Body `xml.MarshalIndent` produces for `c1Doc`. -/
def c1Body : String :=
  " <testsuites name=\"s\">\n   <testsuite name=\"suite1\">\n     <testcase name=\"case1\" classname=\"c\">\n       <properties>\n         <property name=\"p\" value=\"x\">y</property>\n       </properties>\n     </testcase>\n   </testsuite>\n </testsuites>"

/-- C1: the claim says a Property with both a value attribute and inline text
on ANY case aborts the render document-wide, including a Property on a Case
whose owning Suite has no Properties of its own.  The code does not: when a
suite's `Properties` pointer is nil, `checkPropertyValidity`'s `continue`
skips that suite's testcase scan as well, so the violating property on
`case1` goes undetected and a full report is printed. -/
theorem case_property_check_skipped_when_suite_has_no_properties :
    c1Doc.checkPropertyValidity = none ∧
    printDocument c1Doc = PrintOutcome.printed (Header ++ c1Body ++ "\n") :=
  ⟨rfl, rfl⟩

/-- Reports of the spec's worked example (§8): one valid, one invalid with a
backslash in its path. -/
def wReports : List Report :=
  [{ filePath := "cfg/a.yaml", isValid := true, validationError := none },
   { filePath := "cfg\\b.yaml", isValid := false, validationError := some "bad key" }]

/-- Testcase `Print` builds for the first (valid) example report. -/
def wCaseA : Testcase :=
  { name := "cfg/a.yaml validation", className := "config-file-validator", file := "cfg/a.yaml" }

/-- Testcase `Print` builds for the second (invalid) example report. -/
def wCaseB : Testcase :=
  { name := "cfg/b.yaml validation", className := "config-file-validator", file := "cfg/b.yaml",
    testcaseFailure := some { message := "bad key" } }

/-- C2: every invalid report yields a Case carrying a Failure record whose
message is the error's string form, the suite's errors counter counts exactly
the invalid reports, and a valid report's Case carries no Failure, Error or
Skipped record. -/
theorem print_invalid_failure_records (reports : List Report) (tcs : List Testcase) (n : Int)
    (h : buildCases reports = some (tcs, n)) :
    buildTestsuites reports = some
      { name := "config-file-validator",
        tests := (reports.length : Int),
        testsuites := [{ name := "config-file-validator",
                         errors := n,
                         testcases := some tcs }] } ∧
    n = invalidCount reports ∧
    List.Forall₂ (fun r tc =>
      (r.isValid = false → ∃ m, r.validationError = some m ∧
        tc.testcaseFailure = some { message := m, type := "", textValue := "" }) ∧
      (r.isValid = true →
        tc.testcaseFailure = none ∧ tc.testcaseError = none ∧ tc.skipped = none))
      reports tcs := by
  obtain ⟨hL, hN, hF⟩ := buildCases_sound h
  refine ⟨buildTestsuites_eq h, hN, hF.imp (fun a b hm => ?_)⟩
  obtain ⟨_, _, _, hsk, _, herr, hval, hinv⟩ := hm
  exact ⟨hinv, fun hv => ⟨hval hv, herr, hsk⟩⟩

/-- Witness for C2 at the spec's worked example. -/
theorem print_invalid_failure_records_witness :
    buildCases wReports = some ([wCaseA, wCaseB], 1) ∧
    buildTestsuites wReports = some
      { name := "config-file-validator",
        tests := (2 : Int),
        testsuites := [{ name := "config-file-validator",
                         errors := 1,
                         testcases := some [wCaseA, wCaseB] }] } ∧
    (1 : Int) = invalidCount wReports ∧
    List.Forall₂ (fun r tc =>
      (r.isValid = false → ∃ m, r.validationError = some m ∧
        tc.testcaseFailure = some { message := m, type := "", textValue := "" }) ∧
      (r.isValid = true →
        tc.testcaseFailure = none ∧ tc.testcaseError = none ∧ tc.skipped = none))
      wReports [wCaseA, wCaseB] := by
  have h : buildCases wReports = some ([wCaseA, wCaseB], 1) := rfl
  have hc := print_invalid_failure_records wReports [wCaseA, wCaseB] 1 h
  exact ⟨h, hc.1, hc.2.1, hc.2.2⟩

/-- Report document `Print` builds for the empty input. -/
def emptyDoc : Testsuites :=
  { name := "config-file-validator",
    tests := 0,
    testsuites := [{ name := "config-file-validator",
                     errors := 0,
                     testcases := some [] }] }

/-- Body `xml.MarshalIndent` produces for the empty input's document. -/
def emptyBody : String :=
  " <testsuites name=\"config-file-validator\">\n   <testsuite name=\"config-file-validator\"></testsuite>\n </testsuites>"

/-- C3: the document has `tests = N` and exactly one suite holding the N
cases in input order, each named "path validation" (on the normalized path)
with the fixed tool classname; the empty input renders successfully. -/
theorem print_document_shape (reports : List Report) (tcs : List Testcase) (n : Int)
    (h : buildCases reports = some (tcs, n)) :
    buildTestsuites reports = some
      { name := "config-file-validator",
        tests := (reports.length : Int),
        testsuites := [{ name := "config-file-validator",
                         errors := n,
                         testcases := some tcs }] } ∧
    tcs.length = reports.length ∧
    List.Forall₂ (fun r tc =>
      tc.name = normalizePath r.filePath ++ " validation" ∧
      tc.className = "config-file-validator") reports tcs ∧
    Print [] = PrintOutcome.printed (Header ++ emptyBody ++ "\n") := by
  obtain ⟨hL, _, hF⟩ := buildCases_sound h
  exact ⟨buildTestsuites_eq h, hL,
    hF.imp (fun a b hm => ⟨hm.1, hm.2.1⟩), rfl⟩

/-- Witness for C3 at the spec's worked example (and the empty input). -/
theorem print_document_shape_witness :
    buildCases wReports = some ([wCaseA, wCaseB], 1) ∧
    buildTestsuites wReports = some
      { name := "config-file-validator",
        tests := (2 : Int),
        testsuites := [{ name := "config-file-validator",
                         errors := 1,
                         testcases := some [wCaseA, wCaseB] }] } ∧
    ([wCaseA, wCaseB] : List Testcase).length = wReports.length ∧
    List.Forall₂ (fun r tc =>
      tc.name = normalizePath r.filePath ++ " validation" ∧
      tc.className = "config-file-validator") wReports [wCaseA, wCaseB] ∧
    Print [] = PrintOutcome.printed (Header ++ emptyBody ++ "\n") := by
  have h : buildCases wReports = some ([wCaseA, wCaseB], 1) := rfl
  have hc := print_document_shape wReports [wCaseA, wCaseB] 1 h
  exact ⟨h, hc.1, hc.2.1, hc.2.2.1, hc.2.2.2⟩

/-- Input used for C4: one invalid report. -/
def c4Report : Report :=
  { filePath := "bad.yaml", isValid := false, validationError := some "bad key" }

/-- Full text `Print` writes for `[c4Report]`. -/
def c4Out : String :=
  "<?xml version=\"1.0\" encoding=\"UTF-8\"?>\n <testsuites name=\"config-file-validator\" tests=\"1\">\n   <testsuite name=\"config-file-validator\" errors=\"1\">\n     <testcase name=\"bad.yaml validation\" classname=\"config-file-validator\" file=\"bad.yaml\">\n       <failure>\n         <message>bad key</message>\n       </failure>\n     </testcase>\n   </testsuite>\n </testsuites>\n"

/-- C4: the claim (and the spec's sample output) wants the failure message as
a `message` attribute, `<failure message="..."/>`.  The struct tag of
`TestcaseFailure.Message` lacks `,attr`, so the marshaller emits a `<message>`
child element instead, as the full rendered output shows. -/
theorem failure_message_marshals_as_child_element :
    Print [c4Report] = PrintOutcome.printed c4Out ∧
    TestcaseFailure.render 3 { message := "bad key" } =
      "\n       <failure>\n         <message>bad key</message>\n       </failure>" :=
  ⟨rfl, rfl⟩

/-- C5: the path rewrite of `Print` maps every backslash to a forward slash
and keeps every other character, and the spec's example path `a\b\c.yaml`
yields a case whose name and file reference use `a/b/c.yaml`. -/
theorem print_normalizes_backslashes :
    (∀ s : String, (normalizePath s).data =
      s.data.map (fun c => if c == '\\' then '/' else c)) ∧
    buildCases [{ filePath := "a\\b\\c.yaml", isValid := true, validationError := none }] =
      some ([{ name := "a/b/c.yaml validation", className := "config-file-validator",
               file := "a/b/c.yaml" }], 0) := by
  constructor
  · intro s
    unfold normalizePath
    split
    · rfl
    · rename_i hnc
      have hmap : s.data.map (fun c => if c == '\\' then '/' else c) = s.data := by
        have : ∀ c ∈ s.data, (if c == '\\' then '/' else c) = id c := by
          intro c hc
          have hne : c ≠ '\\' := fun he => hnc (he ▸ hc)
          simp [hne]
        rw [List.map_congr_left this, List.map_id]
      rw [hmap]
  · rfl

/-- Suite document used for the C6 witness: the violating property sits
directly on the suite, so the check reports it. -/
def c6Doc : Testsuites :=
  { testsuites := [{ name := "s1",
                     properties := some [{ name := "p", value := "x", textValue := "y" }] }] }

/-- Error `checkPropertyValidity` returns for `c6Doc`. -/
def c6Err : String :=
  "property p in testsuite s1 should contain value or a text value, not both"

/-- C6: `getReport` fails closed — a validity-check error is returned
unchanged, marshalling is never consulted, and `Print`'s tail returns that
error with nothing written to the output stream. -/
theorem getReport_fails_closed (ts : Testsuites) (e : String)
    (h : ts.checkPropertyValidity = some e) :
    ts.getReport = Except.error e ∧ printDocument ts = PrintOutcome.errored e := by
  constructor
  · simp [Testsuites.getReport, h]
  · simp [printDocument, Testsuites.getReport, h]

/-- Witness for C6 at a concrete violating document. -/
theorem getReport_fails_closed_witness :
    c6Doc.checkPropertyValidity = some c6Err ∧
    c6Doc.getReport = Except.error c6Err ∧
    printDocument c6Doc = PrintOutcome.errored c6Err := by
  have h : c6Doc.checkPropertyValidity = some c6Err := rfl
  have hc := getReport_fails_closed c6Doc c6Err h
  exact ⟨h, hc.1, hc.2⟩

/-- Invalid report used for C7. -/
def c7Report : Report :=
  { filePath := "bad.json", isValid := false, validationError := some "invalid" }

/-- Testcase `Print` builds for `c7Report`. -/
def c7Case : Testcase :=
  { name := "bad.json validation", className := "config-file-validator", file := "bad.json",
    testcaseFailure := some { message := "invalid" } }

/-- Counterexample to C7: the claim says an invalid result yields a
`TestcaseError` and no `TestcaseFailure`; the builder does the opposite. -/
theorem invalid_result_error_node_counterexample :
    buildCases [c7Report] = some ([c7Case], 1) ∧
    c7Case.testcaseError = none ∧
    c7Case.testcaseFailure = some { message := "invalid", type := "", textValue := "" } ∧
    ¬ (c7Case.testcaseError ≠ none ∧ c7Case.testcaseFailure = none) := by
  refine ⟨rfl, rfl, rfl, ?_⟩
  rintro ⟨h1, _⟩
  exact h1 rfl

/-- C7 amended: the builder converts invalid results only into failure nodes,
never error nodes — every invalid report's Case carries a `TestcaseFailure`
and its `TestcaseError` is nil. -/
theorem invalid_results_become_failure_nodes (reports : List Report) (tcs : List Testcase)
    (n : Int) (h : buildCases reports = some (tcs, n)) :
    List.Forall₂ (fun r tc =>
      tc.testcaseError = none ∧
      (r.isValid = false → ∃ m, r.validationError = some m ∧
        tc.testcaseFailure = some { message := m, type := "", textValue := "" }))
      reports tcs :=
  ((buildCases_sound h).2.2).imp (fun _ _ hm => ⟨hm.2.2.2.2.2.1, hm.2.2.2.2.2.2.2⟩)

/-- Witness for the amended C7. -/
theorem invalid_results_become_failure_nodes_witness :
    buildCases [c7Report] = some ([c7Case], 1) ∧
    List.Forall₂ (fun r tc =>
      tc.testcaseError = none ∧
      (r.isValid = false → ∃ m, r.validationError = some m ∧
        tc.testcaseFailure = some { message := m, type := "", textValue := "" }))
      [c7Report] [c7Case] := by
  have h : buildCases [c7Report] = some ([c7Case], 1) := rfl
  exact ⟨h, invalid_results_become_failure_nodes [c7Report] [c7Case] 1 h⟩

/-- Document used for the C8 counterexample: a skipped marker with an empty
message. -/
def c8Doc : Testsuites :=
  { testsuites := [{ name := "s",
                     testcases := some [{ name := "c", className := "cls",
                                          skipped := some { message := "" } }] }] }

/-- Marshalled text of `c8Doc`: the zero-valued `message` attribute of the
`skipped` element is emitted. -/
def c8Out : String :=
  " <testsuites>\n   <testsuite name=\"s\">\n     <testcase name=\"c\" classname=\"cls\">\n       <skipped message=\"\"></skipped>\n     </testcase>\n   </testsuite>\n </testsuites>"

/-- Counterexample to C8: `message` on Skipped (like `name` on Property) has
no `omitempty` either, so an empty-string attribute outside the claim's
exception list (name on Suite and Case, classname on Case) is still
emitted. -/
theorem zero_valued_attribute_emitted_counterexample :
    Skipped.xmlAttrs { message := "" } = [("message", "")] ∧
    marshalTestsuites c8Doc = c8Out :=
  ⟨rfl, rfl⟩

/-- C8 amended: serialization omits every zero-valued attribute except the
required ones — `name` on Suite and Case, `classname` on Case, `message` on
Skipped and `name` on Property — which are emitted even when empty.  Stated
as the exact attribute-key lists of every element kind. -/
theorem attribute_omission_rules :
    (∀ ts : Testsuites,
      ts.xmlAttrs.map Prod.fst =
        (if ts.name = "" then [] else ["name"]) ++
        (if ts.tests = 0 then [] else ["tests"]) ++
        (if ts.failures = 0 then [] else ["failures"]) ++
        (if ts.errors = 0 then [] else ["errors"]) ++
        (if ts.skipped = 0 then [] else ["skipped"]) ++
        (if ts.assertions = 0 then [] else ["assertions"]) ++
        (if ts.time = 0 then [] else ["time"]) ++
        (if ts.timestamp = none then [] else ["timestamp"])) ∧
    (∀ s : Testsuite,
      s.xmlAttrs.map Prod.fst =
        ["name"] ++
        (if s.tests = 0 then [] else ["tests"]) ++
        (if s.failures = 0 then [] else ["failures"]) ++
        (if s.errors = 0 then [] else ["errors"]) ++
        (if s.skipped = 0 then [] else ["skipped"]) ++
        (if s.assertions = 0 then [] else ["assertions"]) ++
        (if s.time = 0 then [] else ["time"]) ++
        (if s.timestamp = none then [] else ["timestamp"]) ++
        (if s.file = "" then [] else ["file"])) ∧
    (∀ tc : Testcase,
      tc.xmlAttrs.map Prod.fst =
        ["name", "classname"] ++
        (if tc.assertions = 0 then [] else ["assertions"]) ++
        (if tc.time = 0 then [] else ["time"]) ++
        (if tc.file = "" then [] else ["file"]) ++
        (if tc.line = 0 then [] else ["line"])) ∧
    (∀ sk : Skipped, sk.xmlAttrs = [("message", sk.message)]) ∧
    (∀ p : Property,
      p.xmlAttrs.map Prod.fst = ["name"] ++ (if p.value = "" then [] else ["value"])) := by
  refine ⟨fun ts => ?_, fun s => ?_, fun tc => ?_, fun sk => rfl, fun p => ?_⟩
  · cases hts : ts.timestamp <;>
      simp [Testsuites.xmlAttrs, map_fst_optAttr, ite_not, hts]
  · cases hts : s.timestamp <;>
      simp [Testsuite.xmlAttrs, map_fst_optAttr, ite_not, hts]
  · simp [Testcase.xmlAttrs, map_fst_optAttr, ite_not]
  · simp [Property.xmlAttrs, map_fst_optAttr, ite_not]

/-- C9 counterexample: `fmt.Println` appends one more newline, so the emitted
text is the header plus body plus a trailing newline, not exactly header plus
body. -/
theorem print_trailing_newline_counterexample :
    buildTestsuites [] = some emptyDoc ∧
    emptyDoc.getReport = Except.ok emptyBody ∧
    Print [] = PrintOutcome.printed (Header ++ emptyBody ++ "\n") ∧
    Header ++ emptyBody ++ "\n" ≠ Header ++ emptyBody := by
  refine ⟨rfl, rfl, rfl, ?_⟩
  decide

/-- C9 amended: on success `Print` writes exactly the fixed declaration line,
the serialized body, and one trailing newline (from `fmt.Println`); that
write is the call's only effect, and the error path writes nothing. -/
theorem print_output_is_header_body_newline (reports : List Report) (ts : Testsuites)
    (body : String) (h1 : buildTestsuites reports = some ts)
    (h2 : ts.getReport = Except.ok body) :
    Print reports = PrintOutcome.printed (Header ++ body ++ "\n") ∧
    (∀ ts2 e, Testsuites.getReport ts2 = Except.error e →
      printDocument ts2 = PrintOutcome.errored e) := by
  constructor
  · simp [Print, h1, printDocument, h2]
  · intro ts2 e he
    simp [printDocument, he]

/-- Witness for the amended C9 at the empty input. -/
theorem print_output_is_header_body_newline_witness :
    buildTestsuites [] = some emptyDoc ∧
    emptyDoc.getReport = Except.ok emptyBody ∧
    Print [] = PrintOutcome.printed (Header ++ emptyBody ++ "\n") ∧
    (∀ ts2 e, Testsuites.getReport ts2 = Except.error e →
      printDocument ts2 = PrintOutcome.errored e) := by
  have h1 : buildTestsuites [] = some emptyDoc := rfl
  have h2 : emptyDoc.getReport = Except.ok emptyBody := rfl
  have hc := print_output_is_header_body_newline [] emptyDoc emptyBody h1 h2
  exact ⟨h1, h2, hc.1, hc.2⟩

/-- Reports used for the C10 witness. -/
def c10Reports : List Report :=
  [{ filePath := "a.yaml", isValid := true, validationError := none },
   { filePath := "b.yaml", isValid := false, validationError := some "boom" }]

/-- C10: under the input contract (an error value is present on every invalid
report), `Print` never dereferences a nil error: the panic outcome is
unreachable. -/
theorem print_no_nil_error_dereference (reports : List Report)
    (h : ∀ r ∈ reports, r.isValid = false → r.validationError ≠ none) :
    Print reports ≠ PrintOutcome.panicked := by
  obtain ⟨p, hp⟩ := Option.isSome_iff_exists.mp (buildCases_isSome h)
  obtain ⟨tcs, n⟩ := p
  have hbt := buildTestsuites_eq hp
  cases hc : Testsuites.checkPropertyValidity
      { name := "config-file-validator",
        tests := (reports.length : Int),
        testsuites := [{ name := "config-file-validator",
                         errors := n,
                         testcases := some tcs }] } <;>
    simp [Print, hbt, printDocument, Testsuites.getReport, hc]

/-- Witness for C10. -/
theorem print_no_nil_error_dereference_witness :
    (∀ r ∈ c10Reports, r.isValid = false → r.validationError ≠ none) ∧
    Print c10Reports ≠ PrintOutcome.panicked := by
  have h : ∀ r ∈ c10Reports, r.isValid = false → r.validationError ≠ none := by decide
  exact ⟨h, print_no_nil_error_dereference c10Reports h⟩

end Junit
